import Mathlib

/-!
Shallow embedding of `src/training_models/threshold_scheduler.py`.

Python floats are modelled as real numbers, Python ints as integers.
A scheduler `state` dict is modelled by `SchedState`: a key that is absent
behaves exactly like a key mapped to the empty list in the source
(`state.get("tau_hist") or [tau_min]` treats both the same, and
`state.get(k, [])` yields `[]` for an absent key), so the empty list is a
faithful model of absence.
-/

namespace ThresholdScheduler

/-- The subset of the argparse namespace read by `get_threshold_scheduler`
(via `getattr` with the defaults of `main.py` / of the `getattr` calls). -/
structure Args where
  threshold_method : String
  tau_min : ℝ
  tau_max : ℝ
  cosine_warmup_epochs : ℤ
  exp_k : ℝ

/-- The scheduler `state` dict: history lists for tau, validation loss and
gradient norm. -/
structure SchedState where
  tau_hist : List ℝ
  val_loss_hist : List ℝ
  grad_norm_hist : List ℝ

/-- `_clamp(value, low, high)`: clamp to the unordered bounds. -/
noncomputable def _clamp (value low high : ℝ) : ℝ :=
  let lo := min low high
  let hi := max low high
  if value < lo then lo
  else if value > hi then hi
  else value

/-- Python `hist[-1]` of `(state.get("tau_hist") or [tau_min])`:
the last element of `tau_hist`, or `tau_min` when the list is empty. -/
def lastTau (tau_min : ℝ) (state : SchedState) : ℝ :=
  state.tau_hist.getLastD tau_min

/-- Python `hist[-1]` (meaningful when the list is nonempty). -/
def hist1 (hist : List ℝ) : ℝ := hist.getLastD 0

/-- Python `hist[-2]` (meaningful when the list has at least 2 entries). -/
def hist2 (hist : List ℝ) : ℝ := hist.dropLast.getLastD 0

/-- The `progress` helper: `1.0` when `total_epochs <= 1`, otherwise
`epoch_idx / (total_epochs - 1)` clipped to `[0, 1]`. -/
noncomputable def progress (total_epochs : ℤ) (epoch_idx : ℤ) : ℝ :=
  if total_epochs ≤ 1 then 1.0
  else max 0.0 (min 1.0 ((epoch_idx : ℝ) / ((total_epochs : ℝ) - 1)))

/-- `get_threshold_scheduler(args, total_epochs)`: returns the per-method
scheduler callable `tau_t = scheduler(epoch_idx, state)`. -/
noncomputable def get_threshold_scheduler (args : Args) (total_epochs : ℤ) :
    ℤ → SchedState → ℝ :=
  let method := args.threshold_method
  let tau_min := args.tau_min
  let tau_max := args.tau_max
  if method = "fixed" then
    fun _epoch_idx state =>
      let last_tau := lastTau tau_min state
      -- fixed uses start value but still enforce non-increasing
      let candidate := _clamp tau_min tau_min tau_max
      min candidate last_tau
  else if method = "linear" then
    fun epoch_idx state =>
      let p := progress total_epochs epoch_idx
      let candidate := _clamp (tau_min + (tau_max - tau_min) * p) tau_min tau_max
      let last_tau := lastTau tau_min state
      min candidate last_tau
  else if method = "cosine" then
    let warmup := args.cosine_warmup_epochs
    fun epoch_idx state =>
      if epoch_idx < warmup ∧ warmup > 0 then
        let wp := (epoch_idx : ℝ) / ((max 1 warmup : ℤ) : ℝ)
        let candidate := _clamp (tau_min + (tau_max - tau_min) * wp) tau_min tau_max
        let last_tau := lastTau tau_min state
        min candidate last_tau
      else
        -- cosine over remaining epochs
        let denom := max 1 (total_epochs - max 0 warmup)
        let t := ((epoch_idx : ℝ) - (warmup : ℝ)) / ((denom : ℤ) : ℝ)
        let cos_term := 0.5 * (1 - Real.cos (Real.pi * max 0.0 (min 1.0 t)))
        let candidate := _clamp (tau_min + (tau_max - tau_min) * cos_term) tau_min tau_max
        let last_tau := lastTau tau_min state
        min candidate last_tau
  else if method = "exp" then
    let k := args.exp_k
    fun epoch_idx state =>
      let p := progress total_epochs epoch_idx
      -- Smooth exponential rise from tau_min to tau_max
      let v := 1.0 - Real.exp (-k * p)
      let candidate := _clamp (tau_min + (tau_max - tau_min) * v) tau_min tau_max
      let last_tau := lastTau tau_min state
      min candidate last_tau
  else if method = "adaptive_val" then
    -- Always decrease; decrease faster when validation loss improves
    let fast_down := 0.05 * |tau_max - tau_min|
    let slow_down := 0.02 * |tau_max - tau_min|
    fun _epoch_idx state =>
      let hist := state.val_loss_hist
      let last_tau := lastTau tau_min state
      if hist.length < 2 then _clamp (last_tau - slow_down) tau_min tau_max
      else
        let improved := hist1 hist < hist2 hist - 1e-6
        let step := if improved then fast_down else slow_down
        let candidate := last_tau - step
        -- enforce monotonic decrease and clamp to bounds
        _clamp (min candidate last_tau) tau_min tau_max
  else if method = "adaptive_grad" then
    -- Always decrease; decrease faster when gradient norm decreases
    let fast_down := 0.04 * |tau_max - tau_min|
    let slow_down := 0.02 * |tau_max - tau_min|
    fun _epoch_idx state =>
      let hist := state.grad_norm_hist
      let last_tau := lastTau tau_min state
      if hist.length < 2 then _clamp (last_tau - slow_down) tau_min tau_max
      else
        let decreased := hist1 hist < hist2 hist - 1e-6
        let step := if decreased then fast_down else slow_down
        let candidate := last_tau - step
        _clamp (min candidate last_tau) tau_min tau_max
  else if method = "custom" then
    -- Placeholder; enforce non-increasing using provided tau history
    fun _epoch_idx state =>
      let last_tau := lastTau tau_min state
      let candidate := _clamp tau_min tau_min tau_max
      min candidate last_tau
  else
    -- Fallback to fixed
    fun _epoch_idx _state =>
      _clamp tau_min tau_min tau_max

/-- The empty state (a `state` dict with no keys, or with empty histories). -/
def emptyState : SchedState := SchedState.mk [] [] []

/-- The catalogue of recognized method strings. -/
def methodCatalogue : List String :=
  ["fixed", "linear", "cosine", "exp", "adaptive_val", "adaptive_grad", "custom"]

/-- The monotonic family of methods: candidate-formula methods that take
`min` with the last tau. -/
def monotonicFamily : List String :=
  ["fixed", "linear", "cosine", "exp", "custom"]

/-- The `fixed` method's candidate: `_clamp(tau_min, tau_min, tau_max)`. -/
noncomputable def fixedCandidate (args : Args) : ℝ :=
  _clamp args.tau_min args.tau_min args.tau_max

/-- The `linear` method's candidate:
`_clamp(tau_min + (tau_max - tau_min) * progress(epoch_idx), tau_min, tau_max)`. -/
noncomputable def linearCandidate (args : Args) (total_epochs epoch_idx : ℤ) : ℝ :=
  _clamp (args.tau_min + (args.tau_max - args.tau_min) * progress total_epochs epoch_idx)
    args.tau_min args.tau_max

/-- The `cosine` method's candidate: linear warmup ramp for
`epoch_idx < warmup` (when `warmup > 0`), else the half-cosine rise whose
fraction is `(epoch_idx - warmup) / max(1, total_epochs - max(0, warmup))`
clipped to `[0, 1]`. -/
noncomputable def cosineCandidate (args : Args) (total_epochs epoch_idx : ℤ) : ℝ :=
  let warmup := args.cosine_warmup_epochs
  if epoch_idx < warmup ∧ warmup > 0 then
    let wp := (epoch_idx : ℝ) / ((max 1 warmup : ℤ) : ℝ)
    _clamp (args.tau_min + (args.tau_max - args.tau_min) * wp) args.tau_min args.tau_max
  else
    let denom := max 1 (total_epochs - max 0 warmup)
    let t := ((epoch_idx : ℝ) - (warmup : ℝ)) / ((denom : ℤ) : ℝ)
    let cos_term := 0.5 * (1 - Real.cos (Real.pi * max 0.0 (min 1.0 t)))
    _clamp (args.tau_min + (args.tau_max - args.tau_min) * cos_term) args.tau_min args.tau_max

/-- The `exp` method's candidate:
`_clamp(tau_min + (tau_max - tau_min) * (1 - e^(-k p)), tau_min, tau_max)`. -/
noncomputable def expCandidate (args : Args) (total_epochs epoch_idx : ℤ) : ℝ :=
  _clamp (args.tau_min +
      (args.tau_max - args.tau_min) *
        (1.0 - Real.exp (-args.exp_k * progress total_epochs epoch_idx)))
    args.tau_min args.tau_max

/-- The `custom` placeholder's candidate: same as `fixed`. -/
noncomputable def customCandidate (args : Args) : ℝ :=
  _clamp args.tau_min args.tau_min args.tau_max

/-- The per-method candidate of the monotonic family. -/
noncomputable def monotonicCandidate (args : Args) (total_epochs epoch_idx : ℤ) : ℝ :=
  if args.threshold_method = "fixed" then fixedCandidate args
  else if args.threshold_method = "linear" then linearCandidate args total_epochs epoch_idx
  else if args.threshold_method = "cosine" then cosineCandidate args total_epochs epoch_idx
  else if args.threshold_method = "exp" then expCandidate args total_epochs epoch_idx
  else customCandidate args

/-- The metric history an adaptive method inspects: `val_loss_hist` for
`adaptive_val`, `grad_norm_hist` for `adaptive_grad`. -/
def relevantHist (method : String) (s : SchedState) : List ℝ :=
  if method = "adaptive_val" then s.val_loss_hist else s.grad_norm_hist

/-- Agreement of two metric histories on all the data an adaptive scheduler
reads: either both have fewer than 2 entries, or both have at least 2 and
agree on the last and second-to-last entries. -/
def relevantAgree (h₁ h₂ : List ℝ) : Prop :=
  (h₁.length < 2 ∧ h₂.length < 2) ∨
  (2 ≤ h₁.length ∧ 2 ≤ h₂.length ∧ hist1 h₁ = hist1 h₂ ∧ hist2 h₁ = hist2 h₂)

end ThresholdScheduler

namespace ThresholdScheduler

/-- `_clamp` output is always in the order-normalized interval. -/
lemma clamp_mem (value low high : ℝ) :
    min low high ≤ _clamp value low high ∧ _clamp value low high ≤ max low high := by
  unfold _clamp
  dsimp only
  split_ifs with h1 h2
  · exact ⟨le_refl _, min_le_max⟩
  · exact ⟨min_le_max, le_refl _⟩
  · exact ⟨not_lt.mp h1, not_lt.mp h2⟩

/-- `_clamp` returns its argument when the argument is already in bounds. -/
lemma clamp_of_mem (value low high : ℝ)
    (h₁ : min low high ≤ value) (h₂ : value ≤ max low high) :
    _clamp value low high = value := by
  unfold _clamp
  dsimp only
  split_ifs with hlo hhi
  · linarith
  · linarith
  · rfl

/-- `_clamp` is symmetric in its bound arguments. -/
lemma clamp_comm (value low high : ℝ) :
    _clamp value low high = _clamp value high low := by
  unfold _clamp
  dsimp only
  rw [min_comm, max_comm]

/-- `_clamp tau_min tau_min tau_max = tau_min`: the first argument is always
inside the interval spanned by itself and the other bound. -/
lemma clamp_self_left (tau_min tau_max : ℝ) :
    _clamp tau_min tau_min tau_max = tau_min :=
  clamp_of_mem _ _ _ (min_le_left _ _) (le_max_left _ _)

/-- `_clamp tau_max tau_min tau_max = tau_max`. -/
lemma clamp_self_right (tau_min tau_max : ℝ) :
    _clamp tau_max tau_min tau_max = tau_max :=
  clamp_of_mem _ _ _ (min_le_right _ _) (le_max_right _ _)

/-- The `fixed` branch of the factory. -/
lemma sched_fixed (args : Args) (T e : ℤ) (s : SchedState)
    (hm : args.threshold_method = "fixed") :
    get_threshold_scheduler args T e s =
      min (fixedCandidate args) (lastTau args.tau_min s) := by
  unfold get_threshold_scheduler fixedCandidate
  simp [hm]

/-- The `linear` branch of the factory. -/
lemma sched_linear (args : Args) (T e : ℤ) (s : SchedState)
    (hm : args.threshold_method = "linear") :
    get_threshold_scheduler args T e s =
      min (linearCandidate args T e) (lastTau args.tau_min s) := by
  unfold get_threshold_scheduler linearCandidate
  simp [hm]

/-- The `cosine` branch of the factory. -/
lemma sched_cosine (args : Args) (T e : ℤ) (s : SchedState)
    (hm : args.threshold_method = "cosine") :
    get_threshold_scheduler args T e s =
      min (cosineCandidate args T e) (lastTau args.tau_min s) := by
  unfold get_threshold_scheduler cosineCandidate
  simp [hm]
  split_ifs <;> rfl

/-- The `exp` branch of the factory. -/
lemma sched_exp (args : Args) (T e : ℤ) (s : SchedState)
    (hm : args.threshold_method = "exp") :
    get_threshold_scheduler args T e s =
      min (expCandidate args T e) (lastTau args.tau_min s) := by
  unfold get_threshold_scheduler expCandidate
  simp [hm]

/-- The `custom` branch of the factory. -/
lemma sched_custom (args : Args) (T e : ℤ) (s : SchedState)
    (hm : args.threshold_method = "custom") :
    get_threshold_scheduler args T e s =
      min (customCandidate args) (lastTau args.tau_min s) := by
  unfold get_threshold_scheduler customCandidate
  simp [hm]

/-- The `adaptive_val` branch of the factory. -/
lemma sched_adaptive_val (args : Args) (T e : ℤ) (s : SchedState)
    (hm : args.threshold_method = "adaptive_val") :
    get_threshold_scheduler args T e s =
      if s.val_loss_hist.length < 2 then
        _clamp (lastTau args.tau_min s - 0.02 * |args.tau_max - args.tau_min|)
          args.tau_min args.tau_max
      else
        _clamp
          (min
            (lastTau args.tau_min s -
              (if hist1 s.val_loss_hist < hist2 s.val_loss_hist - 1e-6 then
                0.05 * |args.tau_max - args.tau_min|
              else 0.02 * |args.tau_max - args.tau_min|))
            (lastTau args.tau_min s))
          args.tau_min args.tau_max := by
  unfold get_threshold_scheduler
  simp [hm]

/-- The `adaptive_grad` branch of the factory. -/
lemma sched_adaptive_grad (args : Args) (T e : ℤ) (s : SchedState)
    (hm : args.threshold_method = "adaptive_grad") :
    get_threshold_scheduler args T e s =
      if s.grad_norm_hist.length < 2 then
        _clamp (lastTau args.tau_min s - 0.02 * |args.tau_max - args.tau_min|)
          args.tau_min args.tau_max
      else
        _clamp
          (min
            (lastTau args.tau_min s -
              (if hist1 s.grad_norm_hist < hist2 s.grad_norm_hist - 1e-6 then
                0.04 * |args.tau_max - args.tau_min|
              else 0.02 * |args.tau_max - args.tau_min|))
            (lastTau args.tau_min s))
          args.tau_min args.tau_max := by
  unfold get_threshold_scheduler
  simp [hm]

/-- The fallback branch of the factory, for unrecognized method strings. -/
lemma sched_fallback (args : Args) (T e : ℤ) (s : SchedState)
    (hm : args.threshold_method ∉ methodCatalogue) :
    get_threshold_scheduler args T e s =
      _clamp args.tau_min args.tau_min args.tau_max := by
  unfold get_threshold_scheduler
  simp only [methodCatalogue, List.mem_cons, List.mem_singleton, not_or] at hm
  obtain ⟨h1, h2, h3, h4, h5, h6, h7⟩ := hm
  simp [h1, h2, h3, h4, h5, h6, h7]

/-- A value below the normalized lower bound clamps to that bound. -/
lemma clamp_of_lt (value low high : ℝ) (h : value < min low high) :
    _clamp value low high = min low high := by
  unfold _clamp
  dsimp only
  rw [if_pos h]

/-- With empty `tau_hist`, `last_tau` falls back to `tau_min`. -/
lemma lastTau_of_empty (tau_min : ℝ) (s : SchedState) (h : s.tau_hist = []) :
    lastTau tau_min s = tau_min := by
  simp [lastTau, h]

/-- Every monotonic-family candidate is a `_clamp`, so it lies in the
order-normalized bounds. -/
lemma monotonicCandidate_mem (args : Args) (T e : ℤ) :
    min args.tau_min args.tau_max ≤ monotonicCandidate args T e ∧
    monotonicCandidate args T e ≤ max args.tau_min args.tau_max := by
  unfold monotonicCandidate fixedCandidate linearCandidate cosineCandidate expCandidate
    customCandidate
  dsimp only
  split_ifs <;> exact clamp_mem _ _ _

/-- Dispatch: every monotonic-family scheduler is
`min(candidate, last_tau)`. -/
lemma sched_monotonic (args : Args) (T e : ℤ) (s : SchedState)
    (hm : args.threshold_method ∈ monotonicFamily) :
    get_threshold_scheduler args T e s =
      min (monotonicCandidate args T e) (lastTau args.tau_min s) := by
  simp only [monotonicFamily, List.mem_cons, List.not_mem_nil, or_false] at hm
  unfold monotonicCandidate
  rcases hm with h | h | h | h | h
  · rw [sched_fixed args T e s h, h]
    simp
  · rw [sched_linear args T e s h, h]
    simp
  · rw [sched_cosine args T e s h, h]
    simp
  · rw [sched_exp args T e s h, h]
    simp
  · rw [sched_custom args T e s h, h]
    simp

/-- `progress` at epoch 0 with more than one epoch. -/
lemma progress_at_zero (T : ℤ) (hT : 1 < T) : progress T 0 = 0 := by
  unfold progress
  rw [if_neg (by omega)]
  norm_num

/-- `progress` at the final planned epoch with more than one epoch. -/
lemma progress_at_last (T : ℤ) (hT : 1 < T) : progress T (T - 1) = 1 := by
  unfold progress
  rw [if_neg (by omega)]
  have hne : (T : ℝ) - 1 ≠ 0 := by
    have : (1 : ℝ) < (T : ℝ) := by exact_mod_cast hT
    linarith
  rw [show ((T - 1 : ℤ) : ℝ) = (T : ℝ) - 1 by push_cast; ring, div_self hne]
  norm_num

/-- The cosine candidate with `warmup = 0` and at least one epoch:
the cosine fraction is `epoch_idx / total_epochs`. -/
lemma cosineCandidate_no_warmup (args : Args) (T e : ℤ)
    (hw : args.cosine_warmup_epochs = 0) (hT : 1 ≤ T) :
    cosineCandidate args T e =
      _clamp
        (args.tau_min +
          (args.tau_max - args.tau_min) *
            (0.5 * (1 - Real.cos (Real.pi * max 0 (min 1 ((e : ℝ) / (T : ℝ)))))))
        args.tau_min args.tau_max := by
  unfold cosineCandidate
  rw [hw]
  rw [if_neg (by simp)]
  dsimp only
  rw [show max (0 : ℤ) 0 = 0 by norm_num, sub_zero, max_eq_right hT]
  norm_num

/-- C8: for all real `value`, `low`, `high`, the clamp lies in the
order-normalized closed interval, equals `value` whenever `value` is already
in that interval, and is symmetric in its bound arguments. -/
theorem clamp_contract (value low high : ℝ) :
    (min low high ≤ _clamp value low high ∧ _clamp value low high ≤ max low high) ∧
    (min low high ≤ value → value ≤ max low high → _clamp value low high = value) ∧
    _clamp value low high = _clamp value high low :=
  ⟨clamp_mem value low high, clamp_of_mem value low high, clamp_comm value low high⟩

/-- Witness for C8 at `value = 2`, `low = 3`, `high = 1` (inverted bounds):
the clamp lands inside `[1, 3]`, returns `2` unchanged, and agrees with the
bounds swapped. -/
theorem clamp_contract_witness :
    (min (3 : ℝ) 1 ≤ _clamp 2 3 1 ∧ _clamp 2 3 1 ≤ max 3 1) ∧
    _clamp (2 : ℝ) 3 1 = 2 ∧ _clamp (2 : ℝ) 3 1 = _clamp 2 1 3 := by
  obtain ⟨h1, h2, h3⟩ := clamp_contract (2 : ℝ) 3 1
  exact ⟨h1, h2 (by norm_num) (by norm_num), h3⟩

end ThresholdScheduler

namespace ThresholdScheduler

/-- C1 counterexample: with `method=fixed`, `tau_min=0.3`, `tau_max=0.7` and a
state whose `tau_hist` ends in `0`, the scheduler returns `0`, which is below
the order-normalized lower bound `min 0.3 0.7 = 0.3` — the clamp is applied to
the candidate before the `min` with `last_tau`, so an out-of-range history
entry leaks through. -/
theorem tau_out_of_bounds_cex :
    get_threshold_scheduler (Args.mk "fixed" 0.3 0.7 0 5) 10 0 (SchedState.mk [0] [] []) = 0 ∧
    ¬ min (0.3 : ℝ) 0.7 ≤ 0 := by
  constructor
  · rw [sched_fixed _ 10 0 _ rfl]
    unfold fixedCandidate
    rw [clamp_self_left]
    simp only [lastTau]
    norm_num [min_eq_right]
  · norm_num

/-- C1 amended: the returned tau lies in the order-normalized interval for
`adaptive_val`, `adaptive_grad` and the unknown-method fallback regardless of
the state; for the monotonic family it never exceeds the upper bound, and it
stays above the lower bound provided `last_tau` (the last `tau_hist` entry, or
`tau_min` when the history is empty) is itself at least the lower bound. -/
theorem tau_bounds_amended (args : Args) (T e : ℤ) (s : SchedState) :
    (args.threshold_method = "adaptive_val" ∨ args.threshold_method = "adaptive_grad" ∨
        args.threshold_method ∉ methodCatalogue →
      min args.tau_min args.tau_max ≤ get_threshold_scheduler args T e s ∧
        get_threshold_scheduler args T e s ≤ max args.tau_min args.tau_max) ∧
    (args.threshold_method ∈ monotonicFamily →
      get_threshold_scheduler args T e s ≤ max args.tau_min args.tau_max ∧
        (min args.tau_min args.tau_max ≤ lastTau args.tau_min s →
          min args.tau_min args.tau_max ≤ get_threshold_scheduler args T e s)) := by
  constructor
  · rintro (h | h | h)
    · rw [sched_adaptive_val args T e s h]
      split_ifs <;> exact clamp_mem _ _ _
    · rw [sched_adaptive_grad args T e s h]
      split_ifs <;> exact clamp_mem _ _ _
    · rw [sched_fallback args T e s h]
      exact clamp_mem _ _ _
  · intro h
    rw [sched_monotonic args T e s h]
    obtain ⟨hc1, hc2⟩ := monotonicCandidate_mem args T e
    exact ⟨le_trans (min_le_left _ _) hc2, fun hl => le_min hc1 hl⟩

/-- Witness for C1 amended: `adaptive_val` on bounds `[0,1]` with the empty
state lands in `[0,1]`, and `fixed` on `[0.3,0.7]` with history `[0.5]` does
not exceed `0.7`. -/
theorem tau_bounds_amended_witness :
    (min (0 : ℝ) 1 ≤ get_threshold_scheduler (Args.mk "adaptive_val" 0 1 0 5) 10 0 emptyState ∧
      get_threshold_scheduler (Args.mk "adaptive_val" 0 1 0 5) 10 0 emptyState ≤ max (0 : ℝ) 1) ∧
    get_threshold_scheduler (Args.mk "fixed" 0.3 0.7 0 5) 10 0 (SchedState.mk [0.5] [] []) ≤
      max (0.3 : ℝ) 0.7 := by
  constructor
  · exact (tau_bounds_amended (Args.mk "adaptive_val" 0 1 0 5) 10 0 emptyState).1 (Or.inl rfl)
  · exact ((tau_bounds_amended (Args.mk "fixed" 0.3 0.7 0 5) 10 0
      (SchedState.mk [0.5] [] [])).2 (by decide)).1

/-- C2: for every monotonic-family method, the scheduler returns
`min(candidate, last_tau)` where the candidate is the method's clamped formula
value and `last_tau` is the last `tau_hist` entry (or `tau_min` when the
history is empty); in particular the result never exceeds `last_tau`. -/
theorem monotonic_family_min_with_last (args : Args) (T e : ℤ) (s : SchedState)
    (hm : args.threshold_method ∈ monotonicFamily) :
    get_threshold_scheduler args T e s =
      min (monotonicCandidate args T e) (lastTau args.tau_min s) ∧
    get_threshold_scheduler args T e s ≤ lastTau args.tau_min s ∧
    (s.tau_hist = [] → lastTau args.tau_min s = args.tau_min) := by
  refine ⟨sched_monotonic args T e s hm, ?_, lastTau_of_empty args.tau_min s⟩
  rw [sched_monotonic args T e s hm]
  exact min_le_right _ _

/-- Witness for C2: the `linear` scheduler at epoch 3 with history `[0.2]`
equals the `min` of its candidate with `0.2` and does not exceed `0.2`. -/
theorem monotonic_family_min_with_last_witness :
    get_threshold_scheduler (Args.mk "linear" 0.1 0.9 0 5) 10 3 (SchedState.mk [0.2] [] []) =
      min (monotonicCandidate (Args.mk "linear" 0.1 0.9 0 5) 10 3)
        (lastTau 0.1 (SchedState.mk [0.2] [] [])) ∧
    get_threshold_scheduler (Args.mk "linear" 0.1 0.9 0 5) 10 3 (SchedState.mk [0.2] [] []) ≤
      lastTau 0.1 (SchedState.mk [0.2] [] []) := by
  obtain ⟨h1, h2, h3⟩ := monotonic_family_min_with_last (Args.mk "linear" 0.1 0.9 0 5) 10 3
    (SchedState.mk [0.2] [] []) (by decide)
  exact ⟨h1, h2⟩

/-- C4 counterexample: with `method=fixed`, `tau_min=0.3`, `tau_max=0.7` the
scheduler does NOT return `0.3` for every history — history `[0.2]` yields
`0.2`; and with inverted bounds `tau_min=0.7`, `tau_max=0.3` and empty
history it returns `0.7`, not the order-normalized lower bound `0.3`. -/
theorem fixed_scenario_cex :
    (get_threshold_scheduler (Args.mk "fixed" 0.3 0.7 0 5) 10 0 (SchedState.mk [0.2] [] []) = 0.2 ∧
      (0.2 : ℝ) ≠ 0.3) ∧
    (get_threshold_scheduler (Args.mk "fixed" 0.7 0.3 0 5) 10 0 emptyState = 0.7 ∧
      min (0.7 : ℝ) 0.3 ≠ 0.7) := by
  refine ⟨⟨?_, by norm_num⟩, ?_, by norm_num⟩
  · rw [sched_fixed _ 10 0 _ rfl]
    unfold fixedCandidate
    rw [clamp_self_left]
    simp only [lastTau]
    norm_num [min_eq_right]
  · rw [sched_fixed _ 10 0 _ rfl]
    unfold fixedCandidate
    rw [clamp_self_left]
    simp [lastTau, emptyState]

/-- C4 amended: `fixed` returns `min(tau_min, last_tau)`: this equals `0.3`
under the scenario's bounds whenever `last_tau ≥ 0.3` (in particular for the
empty history), and with empty history `fixed` returns `tau_min` itself for
arbitrary bounds — which is the order-normalized lower bound only when
`tau_min ≤ tau_max`. -/
theorem fixed_returns_amended (args : Args) (T e : ℤ) (s : SchedState)
    (hm : args.threshold_method = "fixed") :
    get_threshold_scheduler args T e s = min args.tau_min (lastTau args.tau_min s) ∧
    (args.tau_min ≤ lastTau args.tau_min s →
      get_threshold_scheduler args T e s = args.tau_min) ∧
    (s.tau_hist = [] → get_threshold_scheduler args T e s = args.tau_min) := by
  have hkey : get_threshold_scheduler args T e s =
      min args.tau_min (lastTau args.tau_min s) := by
    rw [sched_fixed args T e s hm]
    unfold fixedCandidate
    rw [clamp_self_left]
  refine ⟨hkey, fun h => ?_, fun h => ?_⟩
  · rw [hkey, min_eq_left h]
  · rw [hkey, lastTau_of_empty args.tau_min s h, min_self]

/-- Witness for C4 amended: `fixed` with `tau_min=0.3`, `tau_max=0.7` and an
empty history returns `0.3`. -/
theorem fixed_returns_amended_witness :
    get_threshold_scheduler (Args.mk "fixed" 0.3 0.7 0 5) 10 0 emptyState = 0.3 :=
  (fixed_returns_amended (Args.mk "fixed" 0.3 0.7 0 5) 10 0 emptyState rfl).2.2 rfl

/-- C7: an unrecognized method string does not fail; the returned scheduler
yields `_clamp(tau_min, tau_min, tau_max)` — which equals `tau_min` — for
every epoch index and every state, independent of history and with no
monotonic enforcement against `tau_hist`. -/
theorem fallback_fixed_floor (args : Args) (T e : ℤ) (s : SchedState)
    (hm : args.threshold_method ∉ methodCatalogue) :
    get_threshold_scheduler args T e s = _clamp args.tau_min args.tau_min args.tau_max ∧
    get_threshold_scheduler args T e s = args.tau_min := by
  have h := sched_fallback args T e s hm
  exact ⟨h, by rw [h, clamp_self_left]⟩

/-- Witness for C7: an unknown method string, a nonempty `tau_hist` well below
`tau_min`, and an arbitrary epoch still yield `tau_min = 0.3`. -/
theorem fallback_fixed_floor_witness :
    get_threshold_scheduler (Args.mk "mystery" 0.3 0.7 0 5) 10 4
      (SchedState.mk [0.05] [1] [2]) = 0.3 :=
  (fallback_fixed_floor (Args.mk "mystery" 0.3 0.7 0 5) 10 4
    (SchedState.mk [0.05] [1] [2]) (by decide)).2

end ThresholdScheduler

namespace ThresholdScheduler

/-- A value already between the given (ordered) bounds is returned unchanged. -/
lemma clamp_id_of_le (value low high : ℝ) (h1 : low ≤ value) (h2 : value ≤ high) :
    _clamp value low high = value :=
  clamp_of_mem _ _ _ (le_trans (min_le_left _ _) h1) (le_trans h2 (le_max_right _ _))

/-- A value below the (ordered) lower bound clamps to it. -/
lemma clamp_of_lt_left (value low high : ℝ) (h1 : value < low) (h2 : low ≤ high) :
    _clamp value low high = low := by
  rw [clamp_of_lt value low high (by rw [min_eq_left h2]; exact h1), min_eq_left h2]

/-- C3 counterexample: with `tau_min=0.1`, `tau_max=0.9`, `total_epochs=10`,
`method=linear` and the empty state, epoch 9 returns `0.1`, not `0.9`: the
empty history makes `last_tau = tau_min`, so the monotonic `min` caps the
result at `0.1` even though the pre-clamp candidate is `0.9`. -/
theorem linear_scenario_cex :
    get_threshold_scheduler (Args.mk "linear" 0.1 0.9 0 5) 10 9 emptyState = 0.1 ∧
    (0.1 : ℝ) ≠ 0.9 := by
  refine ⟨?_, by norm_num⟩
  rw [sched_linear _ 10 9 _ rfl]
  have hp : progress 10 9 = 1 := by
    have h := progress_at_last 10 (by norm_num)
    rwa [show (10 : ℤ) - 1 = 9 by norm_num] at h
  unfold linearCandidate
  dsimp only
  rw [hp]
  rw [show (0.1 : ℝ) + (0.9 - 0.1) * 1 = (0.9 : ℝ) by norm_num]
  rw [clamp_self_right]
  rw [lastTau_of_empty _ emptyState rfl]
  rw [min_eq_right (by norm_num)]

/-- C3 amended: the linear *candidate* is `tau_min` at epoch 0 and `tau_max`
at epoch `total_epochs - 1` (for `total_epochs > 1`); the *returned* value
with an empty state is `tau_min` at epoch 0 and `min(tau_max, tau_min)` at
the final epoch, since the empty history sets `last_tau = tau_min`. -/
theorem linear_boundary_amended (args : Args) (T : ℤ)
    (hm : args.threshold_method = "linear") (hT : 1 < T) :
    linearCandidate args T 0 = args.tau_min ∧
    linearCandidate args T (T - 1) = args.tau_max ∧
    get_threshold_scheduler args T 0 emptyState = args.tau_min ∧
    get_threshold_scheduler args T (T - 1) emptyState = min args.tau_max args.tau_min := by
  have h0 : linearCandidate args T 0 = args.tau_min := by
    unfold linearCandidate
    rw [progress_at_zero T hT]
    rw [show args.tau_min + (args.tau_max - args.tau_min) * 0 = args.tau_min by ring]
    exact clamp_self_left _ _
  have h1 : linearCandidate args T (T - 1) = args.tau_max := by
    unfold linearCandidate
    rw [progress_at_last T hT]
    rw [show args.tau_min + (args.tau_max - args.tau_min) * 1 = args.tau_max by ring]
    exact clamp_self_right _ _
  refine ⟨h0, h1, ?_, ?_⟩
  · rw [sched_linear args T 0 emptyState hm, h0,
        lastTau_of_empty args.tau_min emptyState rfl, min_self]
  · rw [sched_linear args T (T - 1) emptyState hm, h1,
        lastTau_of_empty args.tau_min emptyState rfl]

/-- Witness for C3 amended: at `tau_min=0.1`, `tau_max=0.9`, `total_epochs=10`
the candidate is `0.1` at epoch 0 and `0.9` at epoch 9, while the returned
value at epoch 0 with the empty state is `0.1`. -/
theorem linear_boundary_amended_witness :
    linearCandidate (Args.mk "linear" 0.1 0.9 0 5) 10 0 = 0.1 ∧
    linearCandidate (Args.mk "linear" 0.1 0.9 0 5) 10 9 = 0.9 ∧
    get_threshold_scheduler (Args.mk "linear" 0.1 0.9 0 5) 10 0 emptyState = 0.1 := by
  obtain ⟨h0, h1, h2, h3⟩ :=
    linear_boundary_amended (Args.mk "linear" 0.1 0.9 0 5) 10 rfl (by norm_num)
  refine ⟨h0, ?_, h2⟩
  rwa [show (10 : ℤ) - 1 = 9 by norm_num] at h1

/-- C5: `adaptive_val` with fewer than 2 validation-loss entries returns
`last_tau` minus the slow step `0.02·|tau_max−tau_min|`, clamped into the
bounds; with at least 2 entries it subtracts the fast step
`0.05·|tau_max−tau_min|` exactly when the latest loss is below the previous
one by more than `1e-6` and the slow step otherwise, the result being the
`min` with `last_tau` clamped into the bounds; `last_tau` is the last
`tau_hist` entry, or `tau_min` when the history is empty. -/
theorem adaptive_val_steps (args : Args) (T e : ℤ) (s : SchedState)
    (hm : args.threshold_method = "adaptive_val") :
    (s.val_loss_hist.length < 2 →
      get_threshold_scheduler args T e s =
        _clamp (lastTau args.tau_min s - 0.02 * |args.tau_max - args.tau_min|)
          args.tau_min args.tau_max) ∧
    (2 ≤ s.val_loss_hist.length →
      get_threshold_scheduler args T e s =
        _clamp
          (min
            (lastTau args.tau_min s -
              (if hist1 s.val_loss_hist < hist2 s.val_loss_hist - 1e-6 then
                0.05 * |args.tau_max - args.tau_min|
              else 0.02 * |args.tau_max - args.tau_min|))
            (lastTau args.tau_min s))
          args.tau_min args.tau_max) ∧
    (s.tau_hist = [] → lastTau args.tau_min s = args.tau_min) := by
  rw [sched_adaptive_val args T e s hm]
  refine ⟨fun h => ?_, fun h => ?_, lastTau_of_empty args.tau_min s⟩
  · rw [if_pos h]
  · rw [if_neg (not_lt.mpr h)]

/-- Witness for C5: `adaptive_val` with `tau_min=0`, `tau_max=1` and all
histories empty returns `max(0, 0 − 0.02) = 0`. -/
theorem adaptive_val_steps_witness :
    get_threshold_scheduler (Args.mk "adaptive_val" 0 1 0 5) 10 0 emptyState = 0 := by
  have h := (adaptive_val_steps (Args.mk "adaptive_val" 0 1 0 5) 10 0 emptyState rfl).1
    (by simp [emptyState])
  rw [h, lastTau_of_empty _ emptyState rfl]
  rw [clamp_of_lt_left _ _ _ (by rw [show |(1 : ℝ) - 0| = 1 by simp]; norm_num) (by norm_num)]

/-- C6 counterexample: `adaptive_grad` with bounds `[0,1]`, `tau_hist=[0.5]`
and a non-decreasing gradient history `[1,1]` subtracts the slow step `0.02`,
returning `0.48` — not `0.5 − 0.04 = 0.46` as the claim's "both steps are
`0.04·|tau_max−tau_min|`" would predict. -/
theorem adaptive_grad_step_cex :
    get_threshold_scheduler (Args.mk "adaptive_grad" 0 1 0 5) 10 0
      (SchedState.mk [0.5] [] [1, 1]) = 0.48 ∧
    (0.48 : ℝ) ≠ 0.5 - 0.04 := by
  refine ⟨?_, by norm_num⟩
  rw [sched_adaptive_grad _ 10 0 _ rfl]
  rw [if_neg (by simp)]
  rw [if_neg (by norm_num [hist1, hist2])]
  rw [show lastTau (Args.mk "adaptive_grad" (0 : ℝ) 1 0 5).tau_min
      (SchedState.mk [0.5] [] [1, 1]) = (0.5 : ℝ) by simp [lastTau]]
  rw [show ((0.5 : ℝ) -
      0.02 * |(Args.mk "adaptive_grad" (0 : ℝ) 1 0 5).tau_max -
        (Args.mk "adaptive_grad" (0 : ℝ) 1 0 5).tau_min|) = (0.48 : ℝ) by
    rw [show |(1 : ℝ) - 0| = 1 by simp]; norm_num]
  rw [min_eq_left (by norm_num)]
  exact clamp_id_of_le _ _ _ (by norm_num) (by norm_num)

/-- C6 amended: `adaptive_grad` has the same structure as `adaptive_val` over
`grad_norm_hist`, but with fast step `0.04·|tau_max−tau_min|` and slow step
`0.02·|tau_max−tau_min|` — the fast/slow distinction remains (only the fast
magnitude differs from `adaptive_val`'s `0.05`), and the favorable signal is
a gradient norm lower than the previous one by more than `1e-6`. -/
theorem adaptive_grad_steps_amended (args : Args) (T e : ℤ) (s : SchedState)
    (hm : args.threshold_method = "adaptive_grad") :
    (s.grad_norm_hist.length < 2 →
      get_threshold_scheduler args T e s =
        _clamp (lastTau args.tau_min s - 0.02 * |args.tau_max - args.tau_min|)
          args.tau_min args.tau_max) ∧
    (2 ≤ s.grad_norm_hist.length →
      get_threshold_scheduler args T e s =
        _clamp
          (min
            (lastTau args.tau_min s -
              (if hist1 s.grad_norm_hist < hist2 s.grad_norm_hist - 1e-6 then
                0.04 * |args.tau_max - args.tau_min|
              else 0.02 * |args.tau_max - args.tau_min|))
            (lastTau args.tau_min s))
          args.tau_min args.tau_max) ∧
    (s.tau_hist = [] → lastTau args.tau_min s = args.tau_min) := by
  rw [sched_adaptive_grad args T e s hm]
  refine ⟨fun h => ?_, fun h => ?_, lastTau_of_empty args.tau_min s⟩
  · rw [if_pos h]
  · rw [if_neg (not_lt.mpr h)]

/-- Witness for C6 amended: with bounds `[0,1]`, `tau_hist=[0.5]` and a
decreasing gradient history `[2,1]`, the fast step `0.04` applies and the
scheduler returns `0.46`. -/
theorem adaptive_grad_steps_amended_witness :
    get_threshold_scheduler (Args.mk "adaptive_grad" 0 1 0 5) 10 0
      (SchedState.mk [0.5] [] [2, 1]) = 0.46 := by
  have h := (adaptive_grad_steps_amended (Args.mk "adaptive_grad" 0 1 0 5) 10 0
    (SchedState.mk [0.5] [] [2, 1]) rfl).2.1 (by simp)
  rw [h]
  rw [if_pos (by norm_num [hist1, hist2])]
  rw [show lastTau (Args.mk "adaptive_grad" (0 : ℝ) 1 0 5).tau_min
      (SchedState.mk [0.5] [] [2, 1]) = (0.5 : ℝ) by simp [lastTau]]
  rw [show ((0.5 : ℝ) -
      0.04 * |(Args.mk "adaptive_grad" (0 : ℝ) 1 0 5).tau_max -
        (Args.mk "adaptive_grad" (0 : ℝ) 1 0 5).tau_min|) = (0.46 : ℝ) by
    rw [show |(1 : ℝ) - 0| = 1 by simp]; norm_num]
  rw [min_eq_left (by norm_num)]
  exact clamp_id_of_le _ _ _ (by norm_num) (by norm_num)

end ThresholdScheduler

namespace ThresholdScheduler

/-- C9: with `warmup = 0`, `tau_min < tau_max` and `total_epochs > 1`, the
cosine candidate is strictly below `tau_max` at every epoch index below
`total_epochs` — in particular at the final planned epoch
`total_epochs - 1`, because the cosine fraction divides by `total_epochs`
rather than `total_epochs - 1` — and first attains `tau_max` exactly at
`epoch_idx ≥ total_epochs`. -/
theorem cosine_candidate_strict_below_max (args : Args) (T : ℤ)
    (hw : args.cosine_warmup_epochs = 0) (hb : args.tau_min < args.tau_max) (hT : 1 < T) :
    (∀ e : ℤ, e < T → cosineCandidate args T e < args.tau_max) ∧
    (∀ e : ℤ, T ≤ e → cosineCandidate args T e = args.tau_max) ∧
    cosineCandidate args T (T - 1) < args.tau_max := by
  have hT0 : (0 : ℝ) < (T : ℝ) := by exact_mod_cast lt_trans one_pos hT
  have key : ∀ e : ℤ, e < T → cosineCandidate args T e < args.tau_max := by
    intro e he
    rw [cosineCandidate_no_warmup args T e hw (by omega)]
    set m : ℝ := max 0 (min 1 ((e : ℝ) / (T : ℝ))) with hmdef
    have ht1 : (e : ℝ) / (T : ℝ) < 1 := (div_lt_one hT0).mpr (by exact_mod_cast he)
    have hm1 : m < 1 := max_lt one_pos (lt_of_le_of_lt (min_le_right _ _) ht1)
    have hm0 : (0 : ℝ) ≤ m := le_max_left _ _
    have hcos : -1 < Real.cos (Real.pi * m) := by
      have hlt : Real.pi * m < Real.pi := mul_lt_of_lt_one_right Real.pi_pos hm1
      have hc := Real.cos_lt_cos_of_nonneg_of_le_pi
        (mul_nonneg Real.pi_pos.le hm0) (le_refl Real.pi) hlt
      rwa [Real.cos_pi] at hc
    have hcle : Real.cos (Real.pi * m) ≤ 1 := Real.cos_le_one _
    have hct1 : 0.5 * (1 - Real.cos (Real.pi * m)) < 1 := by linarith
    have hct0 : (0 : ℝ) ≤ 0.5 * (1 - Real.cos (Real.pi * m)) := by linarith
    have hraw : args.tau_min +
        (args.tau_max - args.tau_min) * (0.5 * (1 - Real.cos (Real.pi * m))) <
        args.tau_max := by nlinarith
    have hrawlo : args.tau_min ≤ args.tau_min +
        (args.tau_max - args.tau_min) * (0.5 * (1 - Real.cos (Real.pi * m))) := by nlinarith
    rw [clamp_id_of_le _ _ _ hrawlo (le_of_lt hraw)]
    exact hraw
  have key2 : ∀ e : ℤ, T ≤ e → cosineCandidate args T e = args.tau_max := by
    intro e he
    rw [cosineCandidate_no_warmup args T e hw (by omega)]
    have ht1 : (1 : ℝ) ≤ (e : ℝ) / (T : ℝ) := (one_le_div hT0).mpr (by exact_mod_cast he)
    rw [min_eq_left ht1, show max (0 : ℝ) 1 = 1 by norm_num, mul_one, Real.cos_pi]
    rw [show args.tau_min + (args.tau_max - args.tau_min) * (0.5 * (1 - (-1))) =
        args.tau_max by ring]
    exact clamp_self_right _ _
  exact ⟨key, key2, key (T - 1) (by omega)⟩

/-- Witness for C9: with bounds `[0,1]` and `total_epochs = 2`, the cosine
candidate at the final planned epoch 1 is below `1`, and at epoch 2 it
equals `1`. -/
theorem cosine_candidate_strict_below_max_witness :
    cosineCandidate (Args.mk "cosine" 0 1 0 5) 2 1 < 1 ∧
    cosineCandidate (Args.mk "cosine" 0 1 0 5) 2 2 = 1 := by
  obtain ⟨k1, k2, k3⟩ := cosine_candidate_strict_below_max (Args.mk "cosine" 0 1 0 5) 2
    rfl (by norm_num) (by norm_num)
  exact ⟨k1 1 (by norm_num), k2 2 (by norm_num)⟩

/-- C10: the adaptive schedulers read only `last_tau` (last `tau_hist` entry
or its absence) and the last two entries of the relevant metric history (or
that it has fewer than two): two states agreeing on those, at any two epoch
indices, give equal results — in particular the epoch index never influences
the result. -/
theorem adaptive_noninterference (args : Args) (T e₁ e₂ : ℤ) (s₁ s₂ : SchedState)
    (hm : args.threshold_method = "adaptive_val" ∨ args.threshold_method = "adaptive_grad")
    (hτ : lastTau args.tau_min s₁ = lastTau args.tau_min s₂)
    (hh : relevantAgree (relevantHist args.threshold_method s₁)
      (relevantHist args.threshold_method s₂)) :
    get_threshold_scheduler args T e₁ s₁ = get_threshold_scheduler args T e₂ s₂ := by
  rcases hm with h | h
  · rw [sched_adaptive_val args T e₁ s₁ h, sched_adaptive_val args T e₂ s₂ h, hτ]
    simp only [relevantHist, h, if_true] at hh
    unfold relevantAgree at hh
    rcases hh with ⟨h1, h2⟩ | ⟨h1, h2, h3, h4⟩
    · rw [if_pos h1, if_pos h2]
    · rw [if_neg (not_lt.mpr h1), if_neg (not_lt.mpr h2), h3, h4]
  · rw [sched_adaptive_grad args T e₁ s₁ h, sched_adaptive_grad args T e₂ s₂ h, hτ]
    simp only [relevantHist, h] at hh
    rw [if_neg (by decide), if_neg (by decide)] at hh
    unfold relevantAgree at hh
    rcases hh with ⟨h1, h2⟩ | ⟨h1, h2, h3, h4⟩
    · rw [if_pos h1, if_pos h2]
    · rw [if_neg (not_lt.mpr h1), if_neg (not_lt.mpr h2), h3, h4]

/-- Witness for C10: two `adaptive_val` states differing in everything except
the last `tau_hist` entry and the last two validation losses, queried at
epochs 0 and 9, give the same tau. -/
theorem adaptive_noninterference_witness :
    get_threshold_scheduler (Args.mk "adaptive_val" 0 1 0 5) 10 0
      (SchedState.mk [0.5] [7, 2, 3] []) =
    get_threshold_scheduler (Args.mk "adaptive_val" 0 1 0 5) 10 9
      (SchedState.mk [0.9, 0.5] [8, 2, 3] [4]) := by
  apply adaptive_noninterference (Args.mk "adaptive_val" 0 1 0 5) 10 0 9 _ _ (Or.inl rfl)
  · simp [lastTau]
  · right
    refine ⟨by simp [relevantHist], by simp [relevantHist], ?_, ?_⟩ <;>
      simp [relevantHist, hist1, hist2]

end ThresholdScheduler
